import Mathlib

/-!
Shallow embedding of the SolSocial backend (src/backend/backend.py, with the
alternate iteration src/app.py where a claim cites it) and proofs about its
like-toggle state machine, signature verifier, token issuance and post listing.

The posts table row (backend.py lines 44-54) carries id, content, author,
wallet_address, likes, liked_by (a JSON list of wallet strings) and created_at.
Python integers are modelled as Int; datetimes as integer timestamps (seconds).
The store is the list of rows of the posts table, in insertion order.
-/

structure PostRow where
  id : Int
  content : String
  author : String
  wallet_address : String
  likes : Int
  liked_by : List String
  created_at : Int
deriving DecidableEq, Repr

/-- The branch of like_post (backend.py lines 205-210): if the wallet is not in
liked_by, append it and increment likes; otherwise remove its first occurrence
(Python list.remove) and decrement likes. -/
def toggleStep (w : String) (likes : Int) (lb : List String) : Int × List String :=
  if w ∉ lb then (likes + 1, lb ++ [w]) else (likes - 1, lb.erase w)

/-- like_post (backend.py lines 198-217): select the row with the given id
(database.fetch_one on id equality returns the first matching row); 404 if
absent; otherwise compute the toggled likes/liked_by from that row and run an
UPDATE setting both fields on every row whose id matches, returning the
updated store together with the response row {**post, likes, liked_by}. -/
def like_post (store : List PostRow) (pid : Int) (w : String) :
    Except Nat (List PostRow × PostRow) :=
  match store.find? (fun q => q.id == pid) with
  | none => .error 404
  | some post =>
    let nl := toggleStep w post.likes post.liked_by
    .ok (store.map (fun q => if q.id == pid then
          { q with likes := nl.1, liked_by := nl.2 } else q),
         { post with likes := nl.1, liked_by := nl.2 })

/-- The store that results from a like_post call: unchanged when the call
errors, the updated store when it succeeds. -/
def runLike (store : List PostRow) (pid : Int) (w : String) : List PostRow :=
  match like_post store pid w with
  | .error _ => store
  | .ok r => r.1

/-- create_post (backend.py lines 182-191): insert a row with likes = 0,
liked_by = [] and a store-side timestamp; the id is the storage-assigned key. -/
def create_post (store : List PostRow) (content author wallet : String)
    (newId : Int) (now : Int) : List PostRow :=
  store ++ [⟨newId, content, author, wallet, 0, [], now⟩]

/-- Per-post like invariant: the likes counter equals the cardinality of
liked_by, and liked_by has no duplicate wallet. -/
def likeInv (p : PostRow) : Prop :=
  p.likes = (p.liked_by.length : Int) ∧ p.liked_by.Nodup

/-- Store-wide like invariant. -/
def storeInv (s : List PostRow) : Prop := ∀ p ∈ s, likeInv p

/-- A mutation of the posts store: a create_post insert or a like_post toggle. -/
inductive StoreOp where
  | create (content author wallet : String) (newId : Int) (now : Int)
  | like (pid : Int) (wallet : String)

def applyOp (s : List PostRow) : StoreOp → List PostRow
  | .create c a w i t => create_post s c a w i t
  | .like pid w => runLike s pid w

/-- A sequential run of store operations starting from a given store. -/
def runOps (s : List PostRow) (ops : List StoreOp) : List PostRow :=
  ops.foldl applyOp s

lemma toggleStep_inv (w : String) (likes : Int) (lb : List String)
    (hl : likes = (lb.length : Int)) (hn : lb.Nodup) :
    (toggleStep w likes lb).1 = (((toggleStep w likes lb).2).length : Int) ∧
      (toggleStep w likes lb).2.Nodup := by
  by_cases hw : w ∈ lb
  · have hlen : (lb.erase w).length = lb.length - 1 := List.length_erase_of_mem hw
    have hpos : 0 < lb.length := List.length_pos.mpr (List.ne_nil_of_mem hw)
    constructor
    · simp only [toggleStep, hw, not_true_eq_false, if_false, hlen]
      omega
    · simp only [toggleStep, hw, not_true_eq_false, if_false]
      exact hn.erase w
  · constructor
    · simp only [toggleStep, hw, not_false_eq_true, if_true, List.length_append,
        List.length_singleton]
      omega
    · simp only [toggleStep, hw, not_false_eq_true, if_true]
      simp [List.nodup_append, hn, hw]

lemma storeInv_applyOp (s : List PostRow) (op : StoreOp) (h : storeInv s) :
    storeInv (applyOp s op) := by
  cases op with
  | create c a w i t =>
    intro p hp
    rcases List.mem_append.mp hp with hp | hp
    · exact h p hp
    · rcases List.mem_singleton.mp hp with rfl
      exact ⟨rfl, List.nodup_nil⟩
  | like pid w =>
    simp only [applyOp, runLike, like_post]
    cases hfind : s.find? (fun q => q.id == pid) with
    | none => exact h
    | some post =>
      intro p hp
      rcases List.mem_map.mp hp with ⟨q, hq, rfl⟩
      by_cases hid : (q.id == pid) = true
      · simp only [hid, if_true]
        have hpost := h post (List.mem_of_find?_eq_some hfind)
        exact toggleStep_inv w post.likes post.liked_by hpost.1 hpost.2
      · simp only [hid, if_false]
        exact h q hq

lemma storeInv_runOps (ops : List StoreOp) (s : List PostRow) (h : storeInv s) :
    storeInv (runOps s ops) := by
  induction ops generalizing s with
  | nil => exact h
  | cons op rest ih => exact ih _ (storeInv_applyOp s op h)

/-- C1: starting from the empty store, after any sequence of create_post and
like_post operations (each toggle applied sequentially; a failed toggle leaves
the store unchanged), every post satisfies likes = |liked_by| and liked_by has
no duplicate wallet address. -/
theorem c1_like_count_invariant (ops : List StoreOp) : storeInv (runOps [] ops) :=
  storeInv_runOps ops [] (fun p hp => absurd hp (List.not_mem_nil p))

lemma find?_update (store : List PostRow) (pid : Int) (f : PostRow → PostRow)
    (hid : ∀ q, (f q).id = q.id) :
    (store.map (fun q => if q.id == pid then f q else q)).find?
        (fun q => q.id == pid)
      = (store.find? (fun q => q.id == pid)).map f := by
  induction store with
  | nil => rfl
  | cons a as ih =>
    by_cases ha : (a.id == pid) = true
    · simp only [List.map_cons, List.find?, ha, if_true, hid a, Option.map_some']
    · have ha' : (a.id == pid) = false := by simpa using ha
      simp only [List.map_cons, List.find?, ha', Bool.false_eq_true, if_false]
      exact ih

/-- C4: like_post on a post id that matches no stored row raises HTTP 404
(backend.py lines 202-203), before any UPDATE is issued, so the resulting
store is the input store unchanged. -/
theorem c4_like_missing_post_404 (store : List PostRow) (pid : Int) (w : String)
    (h : store.find? (fun q => q.id == pid) = none) :
    like_post store pid w = .error 404 ∧ runLike store pid w = store := by
  constructor
  · simp [like_post, h]
  · simp [runLike, like_post, h]

theorem c4_like_missing_post_404_witness :
    ([] : List PostRow).find? (fun q => q.id == (1 : Int)) = none ∧
      like_post [] 1 "walletX" = .error 404 ∧ runLike [] 1 "walletX" = [] :=
  ⟨rfl, c4_like_missing_post_404 [] 1 "walletX" rfl⟩

/-- The two-state behaviour of the like toggle on the stored row p: the call
succeeds, the updated row is stored under the same id, and depending on
whether w was already in liked_by the toggle adds or removes exactly that
wallet and moves likes by exactly one. -/
def toggleTwoState (store : List PostRow) (pid : Int) (w : String) (p : PostRow) : Prop :=
  ∃ s' p', like_post store pid w = .ok (s', p') ∧
    s'.find? (fun q => q.id == pid) = some p' ∧
    (w ∉ p.liked_by →
      p'.likes = p.likes + 1 ∧ w ∈ p'.liked_by ∧
      p'.liked_by.length = p.liked_by.length + 1 ∧
      ∀ x, x ≠ w → (x ∈ p'.liked_by ↔ x ∈ p.liked_by)) ∧
    (w ∈ p.liked_by →
      p'.likes = p.likes - 1 ∧ w ∉ p'.liked_by ∧
      p'.liked_by.length + 1 = p.liked_by.length ∧
      ∀ x, x ≠ w → (x ∈ p'.liked_by ↔ x ∈ p.liked_by))

/-- C2: like_post on an existing post (its liked_by being duplicate-free, as
every reachable store guarantees) behaves as the two-state machine: absent
wallet gets added with likes incremented by exactly 1, present wallet gets
removed with likes decremented by exactly 1; no other wallet's membership
changes. -/
theorem c2_toggle_two_state (store : List PostRow) (pid : Int) (w : String)
    (p : PostRow) (hf : store.find? (fun q => q.id == pid) = some p)
    (hnd : p.liked_by.Nodup) : toggleTwoState store pid w p := by
  by_cases hw : w ∈ p.liked_by
  · refine ⟨store.map (fun q => if q.id == pid then
        { q with likes := p.likes - 1, liked_by := p.liked_by.erase w } else q),
      { p with likes := p.likes - 1, liked_by := p.liked_by.erase w },
      ?_, ?_, ?_, ?_⟩
    · simp [like_post, hf, toggleStep, hw]
    · rw [find?_update store pid
        (fun q => { q with likes := p.likes - 1, liked_by := p.liked_by.erase w })
        (fun q => rfl), hf]
      rfl
    · intro habs; exact absurd hw habs
    · intro _
      refine ⟨by simp, ?_, ?_, ?_⟩
      · intro hmem
        simp only at hmem
        exact absurd rfl (hnd.mem_erase_iff.mp hmem).1
      · have := List.length_erase_of_mem hw
        have hpos : 0 < p.liked_by.length :=
          List.length_pos.mpr (List.ne_nil_of_mem hw)
        simp only
        omega
      · intro x hx
        simp only
        exact List.mem_erase_of_ne hx
  · refine ⟨store.map (fun q => if q.id == pid then
        { q with likes := p.likes + 1, liked_by := p.liked_by ++ [w] } else q),
      { p with likes := p.likes + 1, liked_by := p.liked_by ++ [w] },
      ?_, ?_, ?_, ?_⟩
    · simp [like_post, hf, toggleStep, hw]
    · rw [find?_update store pid
        (fun q => { q with likes := p.likes + 1, liked_by := p.liked_by ++ [w] })
        (fun q => rfl), hf]
      rfl
    · intro _
      refine ⟨by simp, ?_, ?_, ?_⟩
      · simp
      · simp
      · intro x hx
        simp [List.mem_append, hx]
    · intro hmem; exact absurd hmem hw

/-- A post row already liked by one wallet, used to instantiate theorems. -/
def likedPost : PostRow := ⟨1, "gm sol", "alice", "AliceW", 1, ["carol"], 50⟩

theorem c2_toggle_two_state_witness :
    [likedPost].find? (fun q => q.id == (1 : Int)) = some likedPost ∧
      likedPost.liked_by.Nodup ∧ toggleTwoState [likedPost] 1 "bob" likedPost :=
  ⟨rfl, by decide, c2_toggle_two_state [likedPost] 1 "bob" likedPost rfl (by decide)⟩

lemma like_post_of_find? {store : List PostRow} {pid : Int} {p : PostRow}
    (hf : store.find? (fun q => q.id == pid) = some p) (w : String) :
    like_post store pid w = .ok
      (store.map (fun q => if q.id == pid then
        { q with
          likes := (toggleStep w p.likes p.liked_by).1
          liked_by := (toggleStep w p.likes p.liked_by).2 } else q),
       { p with
         likes := (toggleStep w p.likes p.liked_by).1
         liked_by := (toggleStep w p.likes p.liked_by).2 }) := by
  unfold like_post
  rw [hf]

/-- Double application of the like toggle restores the stored row's original
likes counter and its original liked_by membership. -/
def toggleInvolutive (store : List PostRow) (pid : Int) (w : String) (p : PostRow) : Prop :=
  ∃ s1 p1 s2 p2,
    like_post store pid w = .ok (s1, p1) ∧
    like_post s1 pid w = .ok (s2, p2) ∧
    s2.find? (fun q => q.id == pid) = some p2 ∧
    p2.likes = p.likes ∧ p2.liked_by.length = p.liked_by.length ∧
    ∀ x, x ∈ p2.liked_by ↔ x ∈ p.liked_by

/-- C3: applying like_post twice in sequence for the same post id and wallet
(no interleaved operations, liked_by duplicate-free) returns the post to its
original likes count and its original liked_by membership. -/
theorem c3_toggle_involutive (store : List PostRow) (pid : Int) (w : String)
    (p : PostRow) (hf : store.find? (fun q => q.id == pid) = some p)
    (hnd : p.liked_by.Nodup) : toggleInvolutive store pid w p := by
  by_cases hw : w ∈ p.liked_by
  · refine ⟨store.map (fun q => if q.id == pid then
        { q with likes := p.likes - 1, liked_by := p.liked_by.erase w } else q),
      { p with likes := p.likes - 1, liked_by := p.liked_by.erase w },
      (store.map (fun q => if q.id == pid then
        { q with likes := p.likes - 1, liked_by := p.liked_by.erase w } else q)).map
        (fun q => if q.id == pid then
        { q with likes := p.likes - 1 + 1, liked_by := p.liked_by.erase w ++ [w] } else q),
      { p with likes := p.likes - 1 + 1, liked_by := p.liked_by.erase w ++ [w] },
      ?_, ?_, ?_, ?_, ?_, ?_⟩
    · simp [like_post, hf, toggleStep, hw]
    · have hf1 : (store.map (fun q => if q.id == pid then
          { q with likes := p.likes - 1, liked_by := p.liked_by.erase w } else q)).find?
            (fun q => q.id == pid)
          = some { p with likes := p.likes - 1, liked_by := p.liked_by.erase w } := by
        rw [find?_update store pid
          (fun q => { q with likes := p.likes - 1, liked_by := p.liked_by.erase w })
          (fun q => rfl), hf]
        rfl
      have hw1 : w ∉ (p.liked_by.erase w) := fun hmem =>
        absurd rfl (hnd.mem_erase_iff.mp hmem).1
      rw [like_post_of_find? hf1 w]
      simp [toggleStep, hw1]
    · rw [find?_update _ pid
        (fun q => { q with likes := p.likes - 1 + 1, liked_by := p.liked_by.erase w ++ [w] })
        (fun q => rfl),
        find?_update store pid
        (fun q => { q with likes := p.likes - 1, liked_by := p.liked_by.erase w })
        (fun q => rfl), hf]
      rfl
    · simp only
      omega
    · have hlen := List.length_erase_of_mem hw
      have hpos : 0 < p.liked_by.length := List.length_pos.mpr (List.ne_nil_of_mem hw)
      simp only [List.length_append, List.length_singleton]
      omega
    · intro x
      by_cases hx : x = w
      · subst hx
        simp [hw]
      · simp only [List.mem_append, List.mem_singleton, hx, or_false]
        exact List.mem_erase_of_ne hx
  · refine ⟨store.map (fun q => if q.id == pid then
        { q with likes := p.likes + 1, liked_by := p.liked_by ++ [w] } else q),
      { p with likes := p.likes + 1, liked_by := p.liked_by ++ [w] },
      (store.map (fun q => if q.id == pid then
        { q with likes := p.likes + 1, liked_by := p.liked_by ++ [w] } else q)).map
        (fun q => if q.id == pid then
        { q with likes := p.likes + 1 - 1, liked_by := (p.liked_by ++ [w]).erase w } else q),
      { p with likes := p.likes + 1 - 1, liked_by := (p.liked_by ++ [w]).erase w },
      ?_, ?_, ?_, ?_, ?_, ?_⟩
    · simp [like_post, hf, toggleStep, hw]
    · have hf1 : (store.map (fun q => if q.id == pid then
          { q with likes := p.likes + 1, liked_by := p.liked_by ++ [w] } else q)).find?
            (fun q => q.id == pid)
          = some { p with likes := p.likes + 1, liked_by := p.liked_by ++ [w] } := by
        rw [find?_update store pid
          (fun q => { q with likes := p.likes + 1, liked_by := p.liked_by ++ [w] })
          (fun q => rfl), hf]
        rfl
      have hw1 : w ∈ p.liked_by ++ [w] := List.mem_append.mpr (Or.inr (List.mem_singleton.mpr rfl))
      rw [like_post_of_find? hf1 w]
      simp [toggleStep, hw1]
    · rw [find?_update _ pid
        (fun q => { q with likes := p.likes + 1 - 1, liked_by := (p.liked_by ++ [w]).erase w })
        (fun q => rfl),
        find?_update store pid
        (fun q => { q with likes := p.likes + 1, liked_by := p.liked_by ++ [w] })
        (fun q => rfl), hf]
      rfl
    · simp only
      omega
    · have herase : (p.liked_by ++ [w]).erase w = p.liked_by := by
        rw [List.erase_append_right _ hw, List.erase_cons_head, List.append_nil]
      simp only [herase]
    · intro x
      have herase : (p.liked_by ++ [w]).erase w = p.liked_by := by
        rw [List.erase_append_right _ hw, List.erase_cons_head, List.append_nil]
      simp only [herase]

theorem c3_toggle_involutive_witness :
    [likedPost].find? (fun q => q.id == (1 : Int)) = some likedPost ∧
      likedPost.liked_by.Nodup ∧ toggleInvolutive [likedPost] 1 "carol" likedPost :=
  ⟨rfl, by decide, c3_toggle_involutive [likedPost] 1 "carol" likedPost rfl (by decide)⟩

/-- Field-by-field frame property of a successful like toggle: the store keeps
its length, every row keeps its position, id, content, author, wallet_address
and created_at, and every row whose id differs from the targeted post id is
entirely unchanged. -/
def likeFrame (store s' : List PostRow) (pid : Int) : Prop :=
  s'.length = store.length ∧
  ∀ i (hi : i < store.length) (hi' : i < s'.length),
    (s'.get ⟨i, hi'⟩).id = (store.get ⟨i, hi⟩).id ∧
    (s'.get ⟨i, hi'⟩).content = (store.get ⟨i, hi⟩).content ∧
    (s'.get ⟨i, hi'⟩).author = (store.get ⟨i, hi⟩).author ∧
    (s'.get ⟨i, hi'⟩).wallet_address = (store.get ⟨i, hi⟩).wallet_address ∧
    (s'.get ⟨i, hi'⟩).created_at = (store.get ⟨i, hi⟩).created_at ∧
    ((store.get ⟨i, hi⟩).id ≠ pid → s'.get ⟨i, hi'⟩ = store.get ⟨i, hi⟩)

/-- C10: a successful like_post changes at most the likes and liked_by fields
of rows with the targeted id (the UPDATE of backend.py lines 211-216 sets only
those two columns and filters on id), leaving content, author, wallet_address
and created_at of every row, and every other post entirely, unchanged. -/
theorem c10_like_frame (store : List PostRow) (pid : Int) (w : String)
    (s' : List PostRow) (p' : PostRow)
    (h : like_post store pid w = .ok (s', p')) : likeFrame store s' pid := by
  unfold like_post at h
  cases hf : store.find? (fun q => q.id == pid) with
  | none => rw [hf] at h; exact absurd h (by simp)
  | some p =>
    rw [hf] at h
    simp only [Except.ok.injEq, Prod.mk.injEq] at h
    obtain ⟨hs, -⟩ := h
    subst hs
    constructor
    · exact List.length_map store _
    · intro i hi hi'
      have hget : ∀ (f : PostRow → PostRow) (hm : i < (store.map f).length),
          (store.map f).get ⟨i, hm⟩ = f (store.get ⟨i, hi⟩) := by
        intro f hm
        simp [List.get_eq_getElem, List.getElem_map]
      rw [hget]
      by_cases hid : (store.get ⟨i, hi⟩).id = pid
      · simp only [List.get_eq_getElem] at hid ⊢
        simp [hid]
      · simp only [List.get_eq_getElem] at hid ⊢
        simp [hid]

def frameStoreA : List PostRow :=
  [⟨1, "first", "al", "WA", 0, [], 10⟩, ⟨2, "second", "bo", "WB", 0, [], 20⟩]

def frameStoreA' : List PostRow :=
  [⟨1, "first", "al", "WA", 1, ["bob"], 10⟩, ⟨2, "second", "bo", "WB", 0, [], 20⟩]

def framePostA' : PostRow := ⟨1, "first", "al", "WA", 1, ["bob"], 10⟩

theorem c10_like_frame_witness :
    like_post frameStoreA 1 "bob" = .ok (frameStoreA', framePostA') ∧
      likeFrame frameStoreA frameStoreA' 1 :=
  ⟨rfl, c10_like_frame frameStoreA 1 "bob" frameStoreA' framePostA' rfl⟩

/-- The SELECT step of like_post (backend.py lines 200-201): the likes counter
and liked_by list of the targeted row as read at call time, none when the row
is absent. -/
def readPhase (store : List PostRow) (pid : Int) : Option (Int × List String) :=
  (store.find? (fun q => q.id == pid)).map (fun p => (p.likes, p.liked_by))

/-- The UPDATE step of like_post (backend.py lines 205-216) applied to the
current store but computed from a snapshot read earlier: the toggled values
derive from the snapshot, not from the store the UPDATE is applied to. -/
def writePhase (store : List PostRow) (pid : Int) (w : String)
    (snap : Int × List String) : List PostRow :=
  store.map (fun q => if q.id == pid then
    { q with
      likes := (toggleStep w snap.1 snap.2).1
      liked_by := (toggleStep w snap.1 snap.2).2 } else q)

/-- A sequential like_post call is exactly a readPhase immediately followed by
a writePhase on the unchanged store; the decomposition is faithful. -/
lemma runLike_eq_read_write (store : List PostRow) (pid : Int) (w : String) :
    runLike store pid w = (match readPhase store pid with
      | none => store
      | some snap => writePhase store pid w snap) := by
  unfold runLike like_post readPhase writePhase
  cases hf : store.find? (fun q => q.id == pid) <;> simp [hf]

/-- A one-post store with no likes, targeted by two concurrent toggles. -/
def c5Store : List PostRow := [⟨1, "gm", "alice", "WA", 0, [], 100⟩]

/-- C5 (refuted; the spec's atomicity contract is the intent, the code a
known gap): like_post awaits the SELECT (backend.py line 201) and the UPDATE
(line 216) as two separate database calls with no transaction, row lock or
compare-and-swap, so two concurrent toggles on the same post can both read
before either writes. Both then compute from the same snapshot (0, []): the
interleaved execution ends with likes = 1, liked_by = ["bob"], although each
write taken alone wrote both fields together, whereas the two toggles run in
either sequential order return the post to likes = 0, liked_by = []. The
read-modify-write is therefore not one indivisible per-post step. -/
theorem c5_nonatomic_toggle_lost_update :
    readPhase c5Store 1 = some (0, []) ∧
    writePhase (writePhase c5Store 1 "bob" (0, [])) 1 "bob" (0, [])
      = [⟨1, "gm", "alice", "WA", 1, ["bob"], 100⟩] ∧
    runLike (runLike c5Store 1 "bob") 1 "bob" = c5Store :=
  ⟨rfl, rfl, rfl⟩

/-- Whether the needle occurs as a contiguous run at the head of the haystack. -/
def charsStartWith : List Char → List Char → Bool
  | _, [] => true
  | [], _ :: _ => false
  | a :: as, b :: bs => a == b && charsStartWith as bs

/-- Whether the needle occurs as a contiguous run anywhere in the haystack. -/
def charsContain : List Char → List Char → Bool
  | [], needle => needle.isEmpty
  | a :: rest, needle => charsStartWith (a :: rest) needle || charsContain rest needle

/-- Python's substring test s2 in s1, used by the marker check of
verify_signed_message (backend.py line 127). -/
def strContains (hay needle : String) : Bool := charsContain hay.data needle.data

/-- The external solders primitives used by the verifiers, left abstract:
Pubkey.from_string either yields a parsed key or raises (none), and
Pubkey.verify either returns a boolean or raises (.error). -/
structure CryptoOracle where
  parsePubkey : String → Option String
  sigVerify : String → String → List Int → Except Unit Bool

/-- Python bytes(signed_message) (backend.py line 131, app.py line 245):
succeeds exactly when every element is in [0, 256), else raises. -/
def bytesOfList (xs : List Int) : Option (List Int) :=
  if xs.all (fun b => decide (0 ≤ b) && decide (b < 256)) then some xs else none

/-- verify_signed_message (backend.py lines 126-135): reject any message not
containing the marker "SolSocial Auth"; then parse the address, build the
signature bytes and call the library verify inside a try block whose except
clause turns every exception into False. -/
def verify_signed_message (oracle : CryptoOracle) (wallet_address message : String)
    (signed_message : List Int) : Bool :=
  if !(strContains message "SolSocial Auth") then false
  else
    match oracle.parsePubkey wallet_address with
    | none => false
    | some pk =>
      match bytesOfList signed_message with
      | none => false
      | some sig =>
        match oracle.sigVerify pk message sig with
        | .error _ => false
        | .ok b => b

/-- The signature-checking block of app.py wallet_auth (lines 242-254): parse
the address, verify the signature over the raw client-supplied message with no
challenge-format check; a falsy verify raises HTTPException(401), which the
enclosing except Exception clause catches and re-raises as HTTPException(400),
as it does any parsing exception. Returns .ok () when authentication
proceeds to token issuance. -/
def app_wallet_auth_verify (oracle : CryptoOracle) (wallet_address message : String)
    (signed_message : List Int) : Except Nat Unit :=
  match oracle.parsePubkey wallet_address with
  | none => .error 400
  | some pk =>
    match bytesOfList signed_message with
    | none => .error 400
    | some sig =>
      match oracle.sigVerify pk message sig with
      | .error _ => .error 400
      | .ok true => .ok ()
      | .ok false => .error 400

/-- An oracle on which every address parses and every signature verifies:
the strongest adversary for format-check claims. -/
def oracleAllValid : CryptoOracle :=
  ⟨fun s => some s, fun _ _ _ => .ok true⟩

/-- C6 counterexample: the claim quantifies over the repository's signature
verification including app.py wallet_auth (lines 242-254), but that endpoint
performs no challenge-format check: under an oracle making the signature over
the message cryptographically valid, a message that does not contain the
marker "SolSocial Auth" still authenticates (.ok ()), so verification is not
rejected whenever the marker is absent. -/
theorem c6_app_auth_accepts_markerless :
    strContains "please transfer my tokens" "SolSocial Auth" = false ∧
      app_wallet_auth_verify oracleAllValid "SomeWallet"
        "please transfer my tokens" [7] = .ok () :=
  ⟨rfl, rfl⟩

/-- C6 (amended): the backend signature verifier verify_signed_message
(backend.py lines 126-135) returns false for every message that does not
contain the fixed marker "SolSocial Auth", regardless of the oracle - that is,
even if the signature over that message is cryptographically valid; app.py's
wallet_auth endpoint performs no such challenge-format check. -/
theorem c6_backend_marker_required (oracle : CryptoOracle)
    (wallet_address message : String) (signed_message : List Int)
    (h : strContains message "SolSocial Auth" = false) :
    verify_signed_message oracle wallet_address message signed_message = false := by
  unfold verify_signed_message
  rw [h]
  rfl

theorem c6_backend_marker_required_witness :
    strContains "please transfer my tokens" "SolSocial Auth" = false ∧
      verify_signed_message oracleAllValid "SomeWallet"
        "please transfer my tokens" [7] = false :=
  ⟨rfl, c6_backend_marker_required oracleAllValid "SomeWallet"
    "please transfer my tokens" [7] rfl⟩

/-- Some step of the verification raises: the address fails to parse, or the
signature bytes are malformed, or the library verify call itself raises. -/
def cryptoStepFails (oracle : CryptoOracle) (wallet_address message : String)
    (signed_message : List Int) : Prop :=
  oracle.parsePubkey wallet_address = none ∨
  bytesOfList signed_message = none ∨
  (∃ pk sig, oracle.parsePubkey wallet_address = some pk ∧
    bytesOfList signed_message = some sig ∧
    oracle.sigVerify pk message sig = .error ())

/-- C7: verify_signed_message fails closed: it always returns a boolean (its
Lean type), and whenever any parsing or cryptographic step raises - malformed
address, malformed signature bytes, or a throwing library verify - the
exception is absorbed by the except clause and the result is false; no error
propagates to the caller. -/
theorem c7_verify_fails_closed (oracle : CryptoOracle)
    (wallet_address message : String) (signed_message : List Int)
    (h : cryptoStepFails oracle wallet_address message signed_message) :
    verify_signed_message oracle wallet_address message signed_message = false := by
  unfold verify_signed_message
  by_cases hm : strContains message "SolSocial Auth"
  · simp only [hm, Bool.not_true, Bool.false_eq_true, if_false]
    rcases h with h | h | ⟨pk, sig, hpk, hsig, hv⟩
    · rw [h]
    · cases hp : oracle.parsePubkey wallet_address
      · rfl
      · rw [h]
    · simp only [hpk, hsig, hv]
  · have hm' : strContains message "SolSocial Auth" = false := by
      simpa using hm
    rw [hm']
    rfl

/-- An oracle whose address parsing always raises. -/
def oracleParseRaises : CryptoOracle :=
  ⟨fun _ => none, fun _ _ _ => .ok true⟩

theorem c7_verify_fails_closed_witness :
    cryptoStepFails oracleParseRaises "NotAKey" "SolSocial Auth 123" [7] ∧
      verify_signed_message oracleParseRaises "NotAKey" "SolSocial Auth 123" [7]
        = false :=
  ⟨Or.inl rfl,
   c7_verify_fails_closed oracleParseRaises "NotAKey" "SolSocial Auth 123" [7]
     (Or.inl rfl)⟩

/-- The JWT claims the backend puts in a token (backend.py lines 170-173):
a subject wallet (absent in a malformed token) and an expiry timestamp. -/
structure TokenPayload where
  sub : Option String
  exp : Int
deriving DecidableEq, Repr

/-- Model of a token produced by the jose library: a MAC-signed, stateless
credential is decodable exactly by the holder of the signing secret, so the
token is represented by its payload together with the secret and algorithm it
was signed with. -/
structure JwtToken where
  payload : TokenPayload
  secret : String
  alg : String
deriving DecidableEq, Repr

/-- jwt.encode(token_data, secret, algorithm) (backend.py line 174). -/
def jwt_encode (payload : TokenPayload) (secret alg : String) : JwtToken :=
  ⟨payload, secret, alg⟩

/-- jwt.decode(token, secret, algorithms) (backend.py line 118): raises
JWTError unless the token was signed with the same secret, its algorithm is
among the accepted ones, and its exp claim is still in the future; otherwise
yields the payload. -/
def jwt_decode (tok : JwtToken) (secret : String) (algs : List String)
    (now : Int) : Except Unit TokenPayload :=
  if tok.secret = secret ∧ tok.alg ∈ algs ∧ now < tok.payload.exp
  then .ok tok.payload else .error ()

/-- The JWT slice of the Settings object (backend.py lines 30-32). -/
structure JwtSettings where
  jwt_secret : String
  jwt_algorithm : String
  jwt_expire_minutes : Int
deriving Repr

/-- Token issuance inside wallet_auth (backend.py lines 170-174): subject is
the authenticated wallet, expiry is now plus jwt_expire_minutes (a timedelta
of 60 seconds per minute), signed with the server secret. -/
def issue_token (cfg : JwtSettings) (wallet : String) (now : Int) : JwtToken :=
  jwt_encode ⟨some wallet, now + cfg.jwt_expire_minutes * 60⟩
    cfg.jwt_secret cfg.jwt_algorithm

/-- get_current_user (backend.py lines 115-124): decode the bearer token with
the server secret and accepted algorithm, 401 on JWTError or on a payload
without a sub claim, else the subject wallet address. -/
def get_current_user (cfg : JwtSettings) (tok : JwtToken) (now : Int) :
    Except Nat String :=
  match jwt_decode tok cfg.jwt_secret [cfg.jwt_algorithm] now with
  | .error _ => .error 401
  | .ok payload =>
    match payload.sub with
    | none => .error 401
    | some w => .ok w

/-- C8: validating a token right after wallet_auth issued it - with the same
server settings and before the expiry instant now + jwt_expire_minutes * 60 -
succeeds and returns exactly the wallet the token was issued for. -/
theorem c8_token_round_trip (cfg : JwtSettings) (wallet : String) (now tv : Int)
    (h : tv < now + cfg.jwt_expire_minutes * 60) :
    get_current_user cfg (issue_token cfg wallet now) tv = .ok wallet := by
  unfold get_current_user issue_token jwt_encode jwt_decode
  rw [if_pos ⟨rfl, List.mem_singleton.mpr rfl, h⟩]

theorem c8_token_round_trip_witness :
    (0 : Int) < 0 + (10080 : Int) * 60 ∧
      get_current_user ⟨"server-secret", "HS256", 10080⟩
        (issue_token ⟨"server-secret", "HS256", 10080⟩ "WalletW" 0) 0
        = .ok "WalletW" :=
  ⟨by decide,
   c8_token_round_trip ⟨"server-secret", "HS256", 10080⟩ "WalletW" 0 0 (by decide)⟩

/-- Weakly descending on created_at: the only ordering the get_posts query
guarantees (backend.py line 195, ORDER BY created_at DESC with no secondary
sort key). -/
def chainDesc (l : List PostRow) : Prop :=
  l.Chain' (fun a b => b.created_at ≤ a.created_at)

/-- An output the get_posts query (backend.py lines 193-196) may return: all
stored rows in some order that is weakly descending on created_at; rows with
equal created_at may appear in either relative order, since the SQL query
names no tie-breaking key and row order for equal keys is unspecified. -/
def get_posts_result (store outp : List PostRow) : Prop :=
  outp.Perm store ∧ chainDesc outp

/-- The ordering asserted by the claim: created_at descending with ties on
created_at broken by id descending (newest id first). -/
def claimOrdering (l : List PostRow) : Prop :=
  l.Chain' (fun a b => b.created_at < a.created_at ∨
    (b.created_at = a.created_at ∧ b.id < a.id))

def tieA : PostRow := ⟨1, "tie one", "au", "W", 0, [], 5⟩

def tieB : PostRow := ⟨2, "tie two", "au", "W", 0, [], 5⟩

/-- C9 counterexample: with two stored posts sharing the same created_at, the
output that lists the lower id first satisfies everything the code's query
guarantees (a permutation of the store, weakly descending created_at), yet
violates the id-descending tie-break the claim asserts; the code therefore
does not guarantee the claimed ordering. -/
theorem c9_tie_order_unspecified :
    get_posts_result [tieA, tieB] [tieA, tieB] ∧ ¬ claimOrdering [tieA, tieB] := by
  refine ⟨⟨List.Perm.refl _, ?_⟩, ?_⟩
  · simp [chainDesc, List.chain'_cons, tieA, tieB]
  · intro h
    rcases (List.chain'_cons.mp h).1 with h' | ⟨-, h'⟩ <;>
      simp [tieA, tieB] at h'

def postA : PostRow := ⟨1, "a", "au", "W", 0, [], 1⟩

def postB : PostRow := ⟨2, "b", "au", "W", 0, [], 2⟩

def postC : PostRow := ⟨3, "c", "au", "W", 0, [], 3⟩

/-- The store after three sequential create_post calls with contents "a", "b",
"c", storage-assigned increasing ids and strictly increasing timestamps. -/
def seqStore : List PostRow :=
  create_post (create_post (create_post [] "a" "au" "W" 1 1) "b" "au" "W" 2 2)
    "c" "au" "W" 3 3

/-- C9 (amended): get_posts returns all stored posts ordered by created_at
descending; the relative order of posts with equal created_at is unspecified
(the query has no secondary sort key). When the three stored posts "a", "b",
"c" have strictly increasing created_at, that ordering is unique: every
output the query may return is exactly "c", "b", "a". -/
theorem c9_distinct_times_listing (L : List PostRow)
    (h : get_posts_result seqStore L) : L = [postC, postB, postA] := by
  obtain ⟨hperm, hchain⟩ := h
  have hseq : seqStore = [postA, postB, postC] := rfl
  rw [hseq] at hperm
  have hlen := hperm.length_eq
  rcases L with _ | ⟨x, _ | ⟨y, _ | ⟨z, _ | ⟨u, L⟩⟩⟩⟩ <;> simp at hlen
  have hx : x ∈ [postA, postB, postC] := hperm.subset (by simp)
  have hy : y ∈ [postA, postB, postC] := hperm.subset (by simp)
  have hz : z ∈ [postA, postB, postC] := hperm.subset (by simp)
  simp only [List.mem_cons, List.mem_singleton, List.not_mem_nil, or_false] at hx hy hz
  rcases hx with rfl | rfl | rfl <;> rcases hy with rfl | rfl | rfl <;>
    rcases hz with rfl | rfl | rfl <;>
    first
      | rfl
      | exact absurd hperm (by decide)
      | (exfalso
         rcases List.chain'_cons.mp hchain with ⟨h1, h2⟩
         rcases List.chain'_cons.mp h2 with ⟨h3, -⟩
         simp only [postA, postB, postC] at h1 h3
         omega)
theorem c9_distinct_times_listing_witness :
    get_posts_result seqStore [postC, postB, postA] ∧
      [postC, postB, postA] = [postC, postB, postA] :=
  ⟨⟨by decide, by simp [chainDesc, List.chain'_cons, postA, postB, postC]⟩,
   c9_distinct_times_listing [postC, postB, postA]
     ⟨by decide, by simp [chainDesc, List.chain'_cons, postA, postB, postC]⟩⟩
